import Mathlib

/-!
Shallow embedding of `src/SaveInterestingFilesModule.cpp`: a module that
exports files and directory trees flagged as "interesting" on a blackboard
into an output folder, grouped by rule-set name, writing one XML manifest
per rule-set.

External effects (directory creation, file copying, entity lookup) are
modelled by an `Env` record of boolean oracles plus an explicit `FsState`
log of every action performed; a thrown `TskException` is modelled as a
`some ()` third component of a result triple, with all state mutations
performed before the throw preserved (matching C++ semantics for the
mutable XML document and the on-disk effects).
-/

namespace SaveInterestingFiles

/-- Poco::Path::separator() on a POSIX host. -/
def sep : String := "/"

/-- Attribute type tag TSK_SET_NAME (opaque numeric id from the framework). -/
def TSK_SET_NAME : Nat := 36

/-- TSK_FS_META_TYPE_DIR vs. every other meta type. -/
inductive MetaType : Type where
  | dir : MetaType
  | reg : MetaType
deriving DecidableEq

/-- A TskFile entity from the case store: id, name, meta type, unique
(original logical) path, MD5 hash text (empty when no hash module ran),
and its direct children (the rows returned by the
`WHERE par_file_id = id` query; the backing store encodes a tree). -/
inductive FsEntity : Type where
  | mk (eid : Nat) (nm : String) (mt : MetaType) (uniqPath : String)
       (md5 : String) (children : List FsEntity) : FsEntity

def FsEntity.getId : FsEntity → Nat
  | .mk i _ _ _ _ _ => i

def FsEntity.getName : FsEntity → String
  | .mk _ n _ _ _ _ => n

def FsEntity.getMetaType : FsEntity → MetaType
  | .mk _ _ m _ _ _ => m

def FsEntity.getUniquePath : FsEntity → String
  | .mk _ _ _ p _ _ => p

def FsEntity.getHash : FsEntity → String
  | .mk _ _ _ _ h _ => h

def FsEntity.children : FsEntity → List FsEntity
  | .mk _ _ _ _ _ c => c

/-- A TskBlackboardAttribute: type id, value string, context string. -/
structure Attribute where
  typeId : Nat
  valueString : String
  context : String
deriving DecidableEq

/-- A TSK_INTERESTING_FILE_HIT TskBlackboardArtifact. -/
structure Artifact where
  artifactId : Nat
  objectId : Nat
  attributes : List Attribute
deriving DecidableEq

/-- One child element of the manifest root: tag is "SavedDirectory" or
"SavedFile"; `md5` is `some` exactly for files (the MD5 element). -/
structure ManifestEntry where
  tag : String
  path : String
  originalPath : String
  md5 : Option String
deriving DecidableEq

/-- The per-rule-set XML report document: root `InterestingFileSet`
with `name`/`description` attributes and the appended child elements. -/
structure Manifest where
  name : String
  description : String
  entries : List ManifestEntry
deriving DecidableEq

/-- Oracles for the external world: which directory creations succeed,
which file copies succeed, and entity lookup by object id. -/
structure Env where
  mkdirOk : String → Bool
  copyOk : Nat → Bool
  getFile : Nat → Option FsEntity

/-- Log of all externally visible actions performed so far. -/
structure FsState where
  dirsCreated : List String := []
  filesCopied : List (Nat × String) := []
  manifestsWritten : List (String × Manifest) := []
  loggedMalformed : List Nat := []
deriving DecidableEq

/-- TskModule::Status. -/
inductive Status : Type where
  | OK : Status
  | FAIL : Status
deriving DecidableEq

/-- `createDirectory` helper: `Poco::File::createDirectories`, throwing a
TskException (modelled by a `false` flag) on failure. -/
def createDirectory (env : Env) (path : String) (st : FsState) : FsState × Bool :=
  if env.mkdirOk path then
    ({ st with dirsCreated := st.dirsCreated ++ [path] }, true)
  else
    (st, false)

/-- `TskFileManager::copyFile`, throwing on failure. -/
def copyFile (env : Env) (fileId : Nat) (destPath : String) (st : FsState) : FsState × Bool :=
  if env.copyOk fileId then
    ({ st with filesCopied := st.filesCopied ++ [(fileId, destPath)] }, true)
  else
    (st, false)

/-- `addFileToReport`: append a SavedDirectory or SavedFile element (with
Path, OriginalPath and, for files, MD5 children) to the report document. -/
def addFileToReport (file : FsEntity) (filePath : String) (doc : Manifest) : Manifest :=
  if file.getMetaType = MetaType.dir then
    { doc with entries := doc.entries ++
        [{ tag := "SavedDirectory", path := filePath,
           originalPath := file.getUniquePath, md5 := none }] }
  else
    { doc with entries := doc.entries ++
        [{ tag := "SavedFile", path := filePath,
           originalPath := file.getUniquePath, md5 := some file.getHash }] }

/-- The loop body of `saveDirectoryContents`: walk the fetched child file
records of a directory; create subdirectories (plain name, no id suffix)
and recurse into them; copy files (plain name) and record them in the
report. A throw (`some ()`) anywhere aborts the remaining children,
keeping the state and document mutations made so far. -/
def saveChildren (env : Env) :
    List FsEntity → String → FsState → Manifest → FsState × Manifest × Option Unit
  | [], _, st, doc => (st, doc, none)
  | FsEntity.mk i n mt up hs ch :: rest, dirPath, st, doc =>
    if mt = MetaType.dir then
      match createDirectory env (dirPath ++ sep ++ n) st with
      | (st', false) => (st', doc, some ())
      | (st', true) =>
        match saveChildren env ch (dirPath ++ sep ++ n) st' doc with
        | (st'', doc', some u) => (st'', doc', some u)
        | (st'', doc', none) => saveChildren env rest dirPath st'' doc'
    else
      match copyFile env i (dirPath ++ sep ++ n) st with
      | (st', false) => (st', doc, some ())
      | (st', true) =>
        saveChildren env rest dirPath st'
          (addFileToReport (FsEntity.mk i n mt up hs ch) (dirPath ++ sep ++ n) doc)

/-- `saveDirectoryContents`: fetch the directory's direct children and
process them. -/
def saveDirectoryContents (env : Env) (dirPath : String) (dir : FsEntity)
    (st : FsState) (doc : Manifest) : FsState × Manifest × Option Unit :=
  saveChildren env dir.children dirPath st doc

/-- `saveInterestingDirectory`: create
`<set folder>/<name>_<id>/<name>`, record a manifest entry for the
directory, then save its contents recursively. -/
def saveInterestingDirectory (env : Env) (dir : FsEntity) (fileSetFolderPath : String)
    (st : FsState) (doc : Manifest) : FsState × Manifest × Option Unit :=
  match createDirectory env
      (fileSetFolderPath ++ sep ++ dir.getName ++ "_" ++ toString dir.getId
        ++ sep ++ dir.getName) st with
  | (st', false) => (st', doc, some ())
  | (st', true) =>
    saveDirectoryContents env
      (fileSetFolderPath ++ sep ++ dir.getName ++ "_" ++ toString dir.getId
        ++ sep ++ dir.getName)
      dir st'
      (addFileToReport dir
        (fileSetFolderPath ++ sep ++ dir.getName ++ "_" ++ toString dir.getId
          ++ sep ++ dir.getName) doc)

/-- Index (from the end counted from the front) of the LAST occurrence of a
character in a list, i.e. `std::string::rfind` restricted to a single
character needle. -/
def lastIdxOf (c : Char) : List Char → Option Nat
  | [] => none
  | x :: xs =>
    match lastIdxOf c xs with
    | some i => some (i + 1)
    | none => if x = c then some 0 else none

/-- The file-name computation of `saveInterestingFile`: insert the id
suffix before the last '.' unless that '.' is the first character or
absent, in which case append it. -/
def savedFileNameChars (cs : List Char) (idChars : List Char) : List Char :=
  match lastIdxOf '.' cs with
  | some pos =>
    if pos ≠ 0 then cs.take pos ++ idChars ++ cs.drop pos
    else cs ++ idChars
  | none => cs ++ idChars

/-- String-level wrapper: the saved name for a file entity named `nm`
with id `fid`. -/
def savedFileName (nm : String) (fid : Nat) : String :=
  String.mk (savedFileNameChars nm.toList ("_" ++ toString fid).toList)

/-- `saveInterestingFile`: copy the file to
`<set folder>/<decorated name>` and record it in the report. -/
def saveInterestingFile (env : Env) (file : FsEntity) (fileSetFolderPath : String)
    (st : FsState) (doc : Manifest) : FsState × Manifest × Option Unit :=
  match copyFile env file.getId
      (fileSetFolderPath ++ sep ++ savedFileName file.getName file.getId) st with
  | (st', false) => (st', doc, some ())
  | (st', true) =>
    (st', addFileToReport file
      (fileSetFolderPath ++ sep ++ savedFileName file.getName file.getId) doc, none)

/-- The body of the per-hit loop in `saveFiles`: look up the hit's file
and dispatch on its meta type; a failed lookup throws (as
`TskFileManager::getFile` does). -/
def dispatchHit (env : Env) (fileSetFolderPath : String) (art : Artifact)
    (st : FsState) (doc : Manifest) : FsState × Manifest × Option Unit :=
  match env.getFile art.objectId with
  | none => (st, doc, some ())
  | some file =>
    if file.getMetaType = MetaType.dir then
      saveInterestingDirectory env file fileSetFolderPath st doc
    else
      saveInterestingFile env file fileSetFolderPath st doc

/-- The per-hit loop of `saveFiles` with its try/catch: a throw from one
hit is caught, sets the return code to FAIL, and the loop continues with
the next hit. -/
def saveHitsLoop (env : Env) (fileSetFolderPath : String) :
    List Artifact → FsState → Status → Manifest → FsState × Status × Manifest
  | [], st, rc, doc => (st, rc, doc)
  | h :: rest, st, rc, doc =>
    match dispatchHit env fileSetFolderPath h st doc with
    | (st', doc', some _) => saveHitsLoop env fileSetFolderPath rest st' Status.FAIL doc'
    | (st', doc', none) => saveHitsLoop env fileSetFolderPath rest st' rc doc'

/-- `saveFiles`: start the XML report for the set, create the set's
subfolder (throwing out of the function on failure), save every hit with
per-hit failure isolation, then write the completed report to
`<set folder>/<set name>.xml`. -/
def saveFiles (env : Env) (outputFolderPath setName setDescription : String)
    (hits : List Artifact) (st : FsState) (rc : Status) :
    FsState × Status × Option Unit :=
  match createDirectory env (outputFolderPath ++ sep ++ setName) st with
  | (st', false) => (st', rc, some ())
  | (st', true) =>
    match saveHitsLoop env (outputFolderPath ++ sep ++ setName) hits st' rc
        { name := setName, description := setDescription, entries := [] } with
    | (st'', rc', doc') =>
      ({ st'' with manifestsWritten := st''.manifestsWritten ++
          [(outputFolderPath ++ sep ++ setName ++ sep ++ setName ++ ".xml", doc')] },
       rc', none)

/-- `std::less<std::string>`: lexicographic comparison of the character
sequences (the order of `std::map`), as a computable Boolean. -/
def strLt (s t : String) : Bool := decide (s.data < t.data)

/-- `std::map<std::string, std::string>::insert`: keep the association
list sorted ascending by key; an insert with an existing key does NOT
overwrite the stored value. -/
def mapInsert : List (String × String) → String → String → List (String × String)
  | [], k, v => [(k, v)]
  | (k', v') :: rest, k, v =>
    if strLt k k' then (k, v) :: (k', v') :: rest
    else if k = k' then (k', v') :: rest
    else (k', v') :: mapInsert rest k v

/-- `std::multimap::equal_range` on the hit multimap, modelled as a
filter of the insertion-ordered pair list (C++11 multimaps preserve
insertion order among equal keys). -/
def equalRange (fsh : List (String × Artifact)) (k : String) : List Artifact :=
  (fsh.filter (fun p => p.1 = k)).map Prod.snd

/-- The inner attribute loop of `report`: for every TSK_SET_NAME
attribute of the artifact, insert (value, context) into the set map and
(value, artifact) into the hit multimap, and remember that a set name
was found. -/
def processAttrs (art : Artifact) :
    List Attribute → List (String × String) → List (String × Artifact) → Bool →
    List (String × String) × List (String × Artifact) × Bool
  | [], fs, fsh, found => (fs, fsh, found)
  | attr :: rest, fs, fsh, found =>
    if attr.typeId = TSK_SET_NAME then
      processAttrs art rest (mapInsert fs attr.valueString attr.context)
        (fsh ++ [(attr.valueString, art)]) true
    else
      processAttrs art rest fs fsh found

/-- The grouping loop of `report`: partition the artifacts by set name;
an artifact with no TSK_SET_NAME attribute is logged (its artifact id is
appended to the log) and contributes to no group. -/
def groupHitsAux :
    List Artifact → List (String × String) → List (String × Artifact) → List Nat →
    List (String × String) × List (String × Artifact) × List Nat
  | [], fs, fsh, logged => (fs, fsh, logged)
  | art :: rest, fs, fsh, logged =>
    match processAttrs art art.attributes fs fsh false with
    | (fs', fsh', found) =>
      groupHitsAux rest fs' fsh'
        (if found then logged else logged ++ [art.artifactId])

/-- Group all hit artifacts, starting from empty maps. -/
def groupHits (arts : List Artifact) :
    List (String × String) × List (String × Artifact) × List Nat :=
  groupHitsAux arts [] [] []

/-- The per-set loop of `report`: iterate the set map in ascending key
order, calling `saveFiles` for each set's equal range. A throw from
`saveFiles` (set-folder creation failure) escapes the loop to the
run-level catch, which sets the return code to FAIL; the remaining sets
are not processed. -/
def runSets (env : Env) (outputFolderPath : String) (fsh : List (String × Artifact)) :
    List (String × String) → FsState → Status → FsState × Status
  | [], st, rc => (st, rc)
  | (nm, ds) :: rest, st, rc =>
    match saveFiles env outputFolderPath nm ds (equalRange fsh nm) st rc with
    | (st', rc', none) => runSets env outputFolderPath fsh rest st' rc'
    | (st', _, some _) => (st', Status.FAIL)

/-- The `report` module API: create the output root (failure is caught
at the run level and returns FAIL with nothing done), group the hits,
then save the sets one by one. -/
def report (env : Env) (outputFolderPath : String) (arts : List Artifact) :
    FsState × Status :=
  match createDirectory env outputFolderPath {} with
  | (st, false) => (st, Status.FAIL)
  | (st, true) =>
    match groupHits arts with
    | (fileSets, fileSetHits, malformed) =>
      runSets env outputFolderPath fileSetHits fileSets
        { st with loggedMalformed := malformed } Status.OK

/-! Observers used to state properties. -/

/-- Value lookup in the sorted association map (`std::map::find`). -/
def lookupFS : List (String × String) → String → Option String
  | [], _ => none
  | (k', v) :: rest, k => if k = k' then some v else lookupFS rest k

/-! Concrete fixtures used by witnesses and counterexamples. -/

/-- A flagged regular file named `report.txt` with id 5. -/
def fileA : FsEntity := .mk 5 "report.txt" .reg "/img/report.txt" "abc" []

/-- A flagged regular file named `notes` (no extension) with id 9. -/
def fileB : FsEntity := .mk 9 "notes" .reg "/img/notes" "" []

/-- A flagged directory `Photos` (id 42) containing a subdirectory `sub`
(id 43) holding `x.jpg` (id 44), and a file `y.jpg` (id 45). -/
def dirPhotos : FsEntity :=
  .mk 42 "Photos" .dir "/img/Photos" ""
    [.mk 43 "sub" .dir "/img/Photos/sub" ""
       [.mk 44 "x.jpg" .reg "/img/Photos/sub/x.jpg" "h44" []],
     .mk 45 "y.jpg" .reg "/img/Photos/y.jpg" "h45" []]

/-- Hit for `fileA` under set `setA`. -/
def artA : Artifact := ⟨1, 101, [⟨TSK_SET_NAME, "setA", "dA"⟩]⟩

/-- Hit for `fileB` under set `setB`. -/
def artB : Artifact := ⟨2, 102, [⟨TSK_SET_NAME, "setB", "dB"⟩]⟩

/-- Hit for `dirPhotos` under set `setA`, carrying a duplicate
description for that set. -/
def artDir : Artifact := ⟨3, 200, [⟨TSK_SET_NAME, "setA", "dupDesc"⟩]⟩

/-- A malformed hit: no TSK_SET_NAME attribute. -/
def artBad : Artifact := ⟨4, 103, [⟨7, "z", "c"⟩]⟩

/-- Environment where every external operation succeeds. -/
def envAll : Env :=
  ⟨fun _ => true, fun _ => true,
    fun oid =>
      if oid = 101 then some fileA
      else if oid = 102 then some fileB
      else if oid = 200 then some dirPhotos
      else none⟩

/-- Environment where creating `out/setA` fails and everything else
succeeds. -/
def envSetAFails : Env := { envAll with mkdirOk := fun p => !(p == "out/setA") }

/-- Environment where copying the nested file with id 44 fails and
everything else succeeds. -/
def envCopy44Fails : Env := { envAll with copyOk := fun i => !(i == 44) }

/-- Environment where creating the output root `out` fails. -/
def envRootFails : Env := { envAll with mkdirOk := fun p => !(p == "out") }

/-! Helper lemmas. -/

theorem createDirectory_eq_true {env : Env} {path : String} {st st' : FsState}
    (h : createDirectory env path st = (st', true)) :
    st' = { st with dirsCreated := st.dirsCreated ++ [path] } := by
  unfold createDirectory at h
  split at h
  · exact (Prod.mk.injEq _ _ _ _ ▸ h).1.symm
  · simp at h

theorem createDirectory_eq_false {env : Env} {path : String} {st st' : FsState}
    (h : createDirectory env path st = (st', false)) : st' = st := by
  unfold createDirectory at h
  split at h
  · simp at h
  · exact (Prod.mk.injEq _ _ _ _ ▸ h).1.symm

theorem copyFile_eq_true {env : Env} {i : Nat} {path : String} {st st' : FsState}
    (h : copyFile env i path st = (st', true)) :
    st' = { st with filesCopied := st.filesCopied ++ [(i, path)] } := by
  unfold copyFile at h
  split at h
  · exact (Prod.mk.injEq _ _ _ _ ▸ h).1.symm
  · simp at h

theorem copyFile_eq_false {env : Env} {i : Nat} {path : String} {st st' : FsState}
    (h : copyFile env i path st = (st', false)) : st' = st := by
  unfold copyFile at h
  split at h
  · simp at h
  · exact (Prod.mk.injEq _ _ _ _ ▸ h).1.symm

/-- Everything `saveChildren` does: it only appends to the directory and
copy logs, never writes a manifest or touches the malformed-hit log,
preserves the report root's name and description, only appends entries,
every appended entry is a `SavedFile`, and there is exactly one appended
entry per copied file. -/
theorem saveChildren_spec (env : Env) (l : List FsEntity) (p : String)
    (st : FsState) (doc : Manifest) :
    ∃ td tf te,
      (saveChildren env l p st doc).1.dirsCreated = st.dirsCreated ++ td ∧
      (saveChildren env l p st doc).1.filesCopied = st.filesCopied ++ tf ∧
      (saveChildren env l p st doc).1.manifestsWritten = st.manifestsWritten ∧
      (saveChildren env l p st doc).1.loggedMalformed = st.loggedMalformed ∧
      (saveChildren env l p st doc).2.1.name = doc.name ∧
      (saveChildren env l p st doc).2.1.description = doc.description ∧
      (saveChildren env l p st doc).2.1.entries = doc.entries ++ te ∧
      (∀ e ∈ te, e.tag = "SavedFile") ∧ te.length = tf.length := by
  induction l, p, st, doc using saveChildren.induct env with
  | case1 p st doc =>
    exact ⟨[], [], [], by simp [saveChildren]⟩
  | case2 i n up hs ch rest dirPath st doc st' hcd =>
    obtain rfl := createDirectory_eq_false hcd
    refine ⟨[], [], [], ?_⟩
    simp [saveChildren, hcd]
  | case3 i n up hs ch rest dirPath st doc st' hcd st'' doc' u hsc ih =>
    obtain rfl := createDirectory_eq_true hcd
    obtain ⟨td, tf, te, h1, h2, h3, h4, h5, h6, h7, h8, h9⟩ := ih
    rw [hsc] at h1 h2 h3 h4 h5 h6 h7
    refine ⟨[dirPath ++ sep ++ n] ++ td, tf, te, ?_⟩
    simp only [saveChildren, reduceIte, hcd, hsc]
    simp_all [List.append_assoc]
  | case4 i n up hs ch rest dirPath st doc st' hcd st'' doc' hsc ih1 ih2 =>
    obtain rfl := createDirectory_eq_true hcd
    obtain ⟨td1, tf1, te1, h1, h2, h3, h4, h5, h6, h7, h8, h9⟩ := ih1
    rw [hsc] at h1 h2 h3 h4 h5 h6 h7
    obtain ⟨td2, tf2, te2, g1, g2, g3, g4, g5, g6, g7, g8, g9⟩ := ih2
    refine ⟨[dirPath ++ sep ++ n] ++ td1 ++ td2, tf1 ++ tf2, te1 ++ te2, ?_⟩
    simp only [saveChildren, reduceIte, hcd, hsc]
    refine ⟨?_, ?_, ?_, ?_, ?_, ?_, ?_, ?_, ?_⟩
    · rw [g1, h1]; simp [List.append_assoc]
    · rw [g2, h2]; simp [List.append_assoc]
    · rw [g3, h3]
    · rw [g4, h4]
    · rw [g5, h5]
    · rw [g6, h6]
    · rw [g7, h7]; simp [List.append_assoc]
    · intro e he
      rcases List.mem_append.mp he with h | h
      · exact h8 e h
      · exact g8 e h
    · simp [h9, g9]
  | case5 i n mt up hs ch rest dirPath st doc hmt st' hcp =>
    obtain rfl := copyFile_eq_false hcp
    refine ⟨[], [], [], ?_⟩
    simp [saveChildren, hmt, hcp]
  | case6 i n mt up hs ch rest dirPath st doc hmt st' hcp ih =>
    obtain rfl := copyFile_eq_true hcp
    obtain ⟨td, tf, te, h1, h2, h3, h4, h5, h6, h7, h8, h9⟩ := ih
    refine ⟨td, (i, dirPath ++ sep ++ n) :: tf,
      ({ tag := "SavedFile", path := dirPath ++ sep ++ n,
         originalPath := (FsEntity.mk i n mt up hs ch).getUniquePath,
         md5 := some (FsEntity.mk i n mt up hs ch).getHash } : ManifestEntry) :: te, ?_⟩
    simp only [saveChildren, hmt, reduceIte, hcp]
    have hadd : addFileToReport (FsEntity.mk i n mt up hs ch) (dirPath ++ sep ++ n) doc
        = { doc with entries := doc.entries ++
            [{ tag := "SavedFile", path := dirPath ++ sep ++ n,
               originalPath := (FsEntity.mk i n mt up hs ch).getUniquePath,
               md5 := some (FsEntity.mk i n mt up hs ch).getHash }] } := by
      unfold addFileToReport
      rw [if_neg (by simpa [FsEntity.getMetaType] using hmt)]
    rw [hadd] at h1 h2 h3 h4 h5 h6 h7 ⊢
    refine ⟨?_, ?_, h3, h4, h5, h6, ?_, ?_, ?_⟩
    · simpa using h1
    · rw [h2]; simp
    · rw [h7]; simp
    · intro e he
      rcases List.mem_cons.mp he with h | h
      · subst h; rfl
      · exact h8 e h
    · simp [h9]

theorem addFileToReport_name (f : FsEntity) (fp : String) (doc : Manifest) :
    (addFileToReport f fp doc).name = doc.name := by
  unfold addFileToReport; split <;> rfl

theorem addFileToReport_description (f : FsEntity) (fp : String) (doc : Manifest) :
    (addFileToReport f fp doc).description = doc.description := by
  unfold addFileToReport; split <;> rfl

theorem addFileToReport_entries (f : FsEntity) (fp : String) (doc : Manifest) :
    ∃ e, (addFileToReport f fp doc).entries = doc.entries ++ [e] := by
  unfold addFileToReport; split <;> exact ⟨_, rfl⟩

/-- Everything `dispatchHit` does to the state and the report document:
appends to the directory and copy logs, leaves the manifest and
malformed-hit logs alone, preserves the report root attributes, and only
appends report entries. -/
theorem dispatchHit_spec (env : Env) (p : String) (art : Artifact)
    (st : FsState) (doc : Manifest) :
    ∃ td tf te,
      (dispatchHit env p art st doc).1.dirsCreated = st.dirsCreated ++ td ∧
      (dispatchHit env p art st doc).1.filesCopied = st.filesCopied ++ tf ∧
      (dispatchHit env p art st doc).1.manifestsWritten = st.manifestsWritten ∧
      (dispatchHit env p art st doc).1.loggedMalformed = st.loggedMalformed ∧
      (dispatchHit env p art st doc).2.1.name = doc.name ∧
      (dispatchHit env p art st doc).2.1.description = doc.description ∧
      (dispatchHit env p art st doc).2.1.entries = doc.entries ++ te := by
  cases hf : env.getFile art.objectId with
  | none => exact ⟨[], [], [], by simp [dispatchHit, hf]⟩
  | some f =>
    by_cases hmt : f.getMetaType = MetaType.dir
    · have hred : dispatchHit env p art st doc = saveInterestingDirectory env f p st doc := by
        simp [dispatchHit, hf, hmt]
      rw [hred]
      cases hcd : createDirectory env
          (p ++ sep ++ f.getName ++ "_" ++ toString f.getId ++ sep ++ f.getName) st with
      | mk st' b =>
        cases b with
        | false =>
          obtain rfl := createDirectory_eq_false hcd
          exact ⟨[], [], [], by simp [saveInterestingDirectory, hcd]⟩
        | true =>
          obtain rfl := createDirectory_eq_true hcd
          have hred2 : saveInterestingDirectory env f p st doc
              = saveChildren env f.children
                  (p ++ sep ++ f.getName ++ "_" ++ toString f.getId ++ sep ++ f.getName)
                  { st with dirsCreated := st.dirsCreated ++
                      [p ++ sep ++ f.getName ++ "_" ++ toString f.getId ++ sep ++ f.getName] }
                  (addFileToReport f
                    (p ++ sep ++ f.getName ++ "_" ++ toString f.getId ++ sep ++ f.getName)
                    doc) := by
            simp [saveInterestingDirectory, hcd, saveDirectoryContents]
          rw [hred2]
          obtain ⟨td, tf, te, h1, h2, h3, h4, h5, h6, h7, _, _⟩ :=
            saveChildren_spec env f.children
              (p ++ sep ++ f.getName ++ "_" ++ toString f.getId ++ sep ++ f.getName)
              { st with dirsCreated := st.dirsCreated ++
                  [p ++ sep ++ f.getName ++ "_" ++ toString f.getId ++ sep ++ f.getName] }
              (addFileToReport f
                (p ++ sep ++ f.getName ++ "_" ++ toString f.getId ++ sep ++ f.getName) doc)
          obtain ⟨e, he⟩ := addFileToReport_entries f
            (p ++ sep ++ f.getName ++ "_" ++ toString f.getId ++ sep ++ f.getName) doc
          refine ⟨[p ++ sep ++ f.getName ++ "_" ++ toString f.getId ++ sep ++ f.getName] ++ td,
            tf, [e] ++ te, ?_, ?_, ?_, ?_, ?_, ?_, ?_⟩
          · rw [h1]; simp [List.append_assoc]
          · rw [h2]
          · rw [h3]
          · rw [h4]
          · rw [h5, addFileToReport_name]
          · rw [h6, addFileToReport_description]
          · rw [h7, he]; simp [List.append_assoc]
    · have hred : dispatchHit env p art st doc = saveInterestingFile env f p st doc := by
        simp [dispatchHit, hf, hmt]
      rw [hred]
      cases hcp : copyFile env f.getId
          (p ++ sep ++ savedFileName f.getName f.getId) st with
      | mk st' b =>
        cases b with
        | false =>
          obtain rfl := copyFile_eq_false hcp
          exact ⟨[], [], [], by simp [saveInterestingFile, hcp]⟩
        | true =>
          obtain rfl := copyFile_eq_true hcp
          obtain ⟨e, he⟩ := addFileToReport_entries f
            (p ++ sep ++ savedFileName f.getName f.getId) doc
          exact ⟨[], [(f.getId, p ++ sep ++ savedFileName f.getName f.getId)], [e],
            by simp [saveInterestingFile, hcp, he, addFileToReport_name,
              addFileToReport_description]⟩

/-- Everything the per-hit loop does: appends to the logs, writes no
manifest, preserves the report root attributes, and only appends report
entries. -/
theorem saveHitsLoop_spec (env : Env) (p : String) (l : List Artifact) :
    ∀ (st : FsState) (rc : Status) (doc : Manifest),
    ∃ td tf te,
      (saveHitsLoop env p l st rc doc).1.dirsCreated = st.dirsCreated ++ td ∧
      (saveHitsLoop env p l st rc doc).1.filesCopied = st.filesCopied ++ tf ∧
      (saveHitsLoop env p l st rc doc).1.manifestsWritten = st.manifestsWritten ∧
      (saveHitsLoop env p l st rc doc).1.loggedMalformed = st.loggedMalformed ∧
      (saveHitsLoop env p l st rc doc).2.2.name = doc.name ∧
      (saveHitsLoop env p l st rc doc).2.2.description = doc.description ∧
      (saveHitsLoop env p l st rc doc).2.2.entries = doc.entries ++ te := by
  induction l with
  | nil => exact fun st rc doc => ⟨[], [], [], by simp [saveHitsLoop]⟩
  | cons h rest ih =>
    intro st rc doc
    obtain ⟨td1, tf1, te1, h1, h2, h3, h4, h5, h6, h7⟩ := dispatchHit_spec env p h st doc
    cases hd : dispatchHit env p h st doc with
    | mk st' rest' =>
      cases rest' with
      | mk doc' o =>
        rw [hd] at h1 h2 h3 h4 h5 h6 h7
        cases o with
        | none =>
          obtain ⟨td2, tf2, te2, g1, g2, g3, g4, g5, g6, g7⟩ := ih st' rc doc'
          refine ⟨td1 ++ td2, tf1 ++ tf2, te1 ++ te2, ?_⟩
          simp only [saveHitsLoop, hd]
          exact ⟨by rw [g1, h1]; simp, by rw [g2, h2]; simp, by rw [g3, h3],
            by rw [g4, h4], by rw [g5, h5], by rw [g6, h6], by rw [g7, h7]; simp⟩
        | some u =>
          obtain ⟨td2, tf2, te2, g1, g2, g3, g4, g5, g6, g7⟩ := ih st' Status.FAIL doc'
          refine ⟨td1 ++ td2, tf1 ++ tf2, te1 ++ te2, ?_⟩
          simp only [saveHitsLoop, hd]
          exact ⟨by rw [g1, h1]; simp, by rw [g2, h2]; simp, by rw [g3, h3],
            by rw [g4, h4], by rw [g5, h5], by rw [g6, h6], by rw [g7, h7]; simp⟩

/-- A FAIL return code is never reset by the per-hit loop. -/
theorem saveHitsLoop_FAIL (env : Env) (p : String) (l : List Artifact) :
    ∀ (st : FsState) (doc : Manifest),
      (saveHitsLoop env p l st Status.FAIL doc).2.1 = Status.FAIL := by
  induction l with
  | nil => exact fun st doc => rfl
  | cons h rest ih =>
    intro st doc
    cases hd : dispatchHit env p h st doc with
    | mk st' rest' =>
      cases rest' with
      | mk doc' o =>
        cases o <;> simp only [saveHitsLoop, hd] <;> exact ih _ _

/-- When the set folder can be created, `saveFiles` returns normally and
appends exactly one manifest, at `<set folder>/<set name>.xml`, whose
root carries the set name and description. -/
theorem saveFiles_manifest (env : Env) (out nm ds : String) (hits : List Artifact)
    (st : FsState) (rc : Status) (h : env.mkdirOk (out ++ sep ++ nm) = true) :
    ∃ doc,
      (saveFiles env out nm ds hits st rc).1.manifestsWritten
        = st.manifestsWritten ++ [(out ++ sep ++ nm ++ sep ++ nm ++ ".xml", doc)] ∧
      doc.name = nm ∧ doc.description = ds ∧
      (saveFiles env out nm ds hits st rc).2.2 = none := by
  have hcd : createDirectory env (out ++ sep ++ nm) st
      = ({ st with dirsCreated := st.dirsCreated ++ [out ++ sep ++ nm] }, true) := by
    simp [createDirectory, h]
  obtain ⟨td, tf, te, h1, h2, h3, h4, h5, h6, h7⟩ := saveHitsLoop_spec env
    (out ++ sep ++ nm) hits { st with dirsCreated := st.dirsCreated ++ [out ++ sep ++ nm] }
    rc { name := nm, description := ds, entries := [] }
  cases hsl : saveHitsLoop env (out ++ sep ++ nm) hits
      { st with dirsCreated := st.dirsCreated ++ [out ++ sep ++ nm] } rc
      { name := nm, description := ds, entries := [] } with
  | mk st2 rest2 =>
    cases rest2 with
    | mk rc2 doc2 =>
      rw [hsl] at h1 h2 h3 h4 h5 h6 h7
      refine ⟨doc2, ?_, h5, h6, ?_⟩
      · simp only [saveFiles, hcd, hsl]
        rw [h3]
      · simp only [saveFiles, hcd, hsl]

/-- When the set folder can be created, `saveFiles` records that folder
as created, before anything done for the individual hits. -/
theorem saveFiles_dirs (env : Env) (out nm ds : String) (hits : List Artifact)
    (st : FsState) (rc : Status) (h : env.mkdirOk (out ++ sep ++ nm) = true) :
    ∃ t, (saveFiles env out nm ds hits st rc).1.dirsCreated
        = st.dirsCreated ++ (out ++ sep ++ nm) :: t := by
  have hcd : createDirectory env (out ++ sep ++ nm) st
      = ({ st with dirsCreated := st.dirsCreated ++ [out ++ sep ++ nm] }, true) := by
    simp [createDirectory, h]
  obtain ⟨td, tf, te, h1, h2, h3, h4, h5, h6, h7⟩ := saveHitsLoop_spec env
    (out ++ sep ++ nm) hits { st with dirsCreated := st.dirsCreated ++ [out ++ sep ++ nm] }
    rc { name := nm, description := ds, entries := [] }
  cases hsl : saveHitsLoop env (out ++ sep ++ nm) hits
      { st with dirsCreated := st.dirsCreated ++ [out ++ sep ++ nm] } rc
      { name := nm, description := ds, entries := [] } with
  | mk st2 rest2 =>
    cases rest2 with
    | mk rc2 doc2 =>
      rw [hsl] at h1
      refine ⟨td, ?_⟩
      simp only [saveFiles, hcd, hsl]
      rw [h1]; simp

/-- A FAIL return code is never reset by `saveFiles`. -/
theorem saveFiles_FAIL (env : Env) (out nm ds : String) (hits : List Artifact)
    (st : FsState) :
    (saveFiles env out nm ds hits st Status.FAIL).2.1 = Status.FAIL := by
  cases hcd : createDirectory env (out ++ sep ++ nm) st with
  | mk st' b =>
    cases b with
    | false => simp only [saveFiles, hcd]
    | true =>
      have hfl := saveHitsLoop_FAIL env (out ++ sep ++ nm) hits st'
        { name := nm, description := ds, entries := [] }
      cases hsl : saveHitsLoop env (out ++ sep ++ nm) hits st' Status.FAIL
          { name := nm, description := ds, entries := [] } with
      | mk st2 rest2 =>
        cases rest2 with
        | mk rc2 doc2 =>
          rw [hsl] at hfl
          simp only [saveFiles, hcd, hsl]
          exact hfl

/-- A FAIL return code is never reset by the per-set loop. -/
theorem runSets_FAIL (env : Env) (out : String) (fsh : List (String × Artifact))
    (sets : List (String × String)) :
    ∀ st : FsState, (runSets env out fsh sets st Status.FAIL).2 = Status.FAIL := by
  induction sets with
  | nil => exact fun st => rfl
  | cons s rest ih =>
    intro st
    cases s with
    | mk nm ds =>
      have hsf := saveFiles_FAIL env out nm ds (equalRange fsh nm) st
      cases hs : saveFiles env out nm ds (equalRange fsh nm) st Status.FAIL with
      | mk st' rest' =>
        cases rest' with
        | mk rc' o =>
          rw [hs] at hsf
          cases o with
          | none =>
            have hrc : rc' = Status.FAIL := hsf
            simp only [runSets, hs]
            rw [hrc]
            exact ih st'
          | some u => simp only [runSets, hs]

/-- Key order of the `std::map` comparator. -/
def keyLt (x y : String × String) : Prop := x.1 < y.1

theorem strLt_iff (s t : String) : strLt s t = true ↔ s < t :=
  decide_eq_true_iff.trans String.lt_iff_toList_lt.symm

theorem mapInsert_keys (fs : List (String × String)) (k v a : String) :
    a ∈ (mapInsert fs k v).map Prod.fst ↔ a = k ∨ a ∈ fs.map Prod.fst := by
  induction fs with
  | nil => simp [mapInsert]
  | cons p rest ih =>
    obtain ⟨k2, v2⟩ := p
    by_cases h1 : strLt k k2 = true
    · simp [mapInsert, h1]
    · by_cases h2 : k = k2
      · subst h2
        simp only [mapInsert, if_neg h1, reduceIte, List.map_cons, List.mem_cons]
        tauto
      · simp only [mapInsert, if_neg h1, if_neg h2, List.map_cons, List.mem_cons, ih]
        tauto

theorem mapInsert_pairwise (fs : List (String × String)) (k v : String)
    (hp : List.Pairwise keyLt fs) : List.Pairwise keyLt (mapInsert fs k v) := by
  induction fs with
  | nil => simp [mapInsert]
  | cons p rest ih =>
    obtain ⟨k2, v2⟩ := p
    rw [List.pairwise_cons] at hp
    obtain ⟨hhead, htail⟩ := hp
    by_cases h1 : strLt k k2 = true
    · have h1' : k < k2 := (strLt_iff k k2).mp h1
      simp only [mapInsert, if_pos h1]
      refine List.Pairwise.cons ?_ (List.Pairwise.cons hhead htail)
      intro y hy
      rcases List.mem_cons.mp hy with rfl | hy'
      · exact h1'
      · exact lt_trans h1' (hhead y hy')
    · by_cases h2 : k = k2
      · simp only [mapInsert, if_neg h1, if_pos h2]
        exact List.Pairwise.cons hhead htail
      · simp only [mapInsert, if_neg h1, if_neg h2]
        have hk2k : k2 < k := by
          rcases lt_trichotomy k k2 with h | h | h
          · exact absurd ((strLt_iff k k2).mpr h) h1
          · exact absurd h h2
          · exact h
        refine List.Pairwise.cons ?_ (ih htail)
        intro y hy
        have hmem := (mapInsert_keys rest k v y.1).mp (List.mem_map_of_mem Prod.fst hy)
        rcases hmem with h | h
        · show k2 < y.1
          rw [h]; exact hk2k
        · obtain ⟨z, hz, hzy⟩ := List.mem_map.mp h
          show k2 < y.1
          rw [← hzy]; exact hhead z hz

theorem mapInsert_lookup (fs : List (String × String)) (k v a : String)
    (hp : List.Pairwise keyLt fs) (ha : a ∈ fs.map Prod.fst) :
    lookupFS (mapInsert fs k v) a = lookupFS fs a := by
  induction fs with
  | nil => simp at ha
  | cons p rest ih =>
    obtain ⟨k2, v2⟩ := p
    rw [List.pairwise_cons] at hp
    obtain ⟨hhead, htail⟩ := hp
    by_cases h1 : strLt k k2 = true
    · have h1' : k < k2 := (strLt_iff k k2).mp h1
      have hka : k < a := by
        rcases List.mem_map.mp ha with ⟨z, hz, hza⟩
        rcases List.mem_cons.mp hz with rfl | hz'
        · exact hza ▸ h1'
        · exact hza ▸ lt_trans h1' (hhead z hz')
      simp only [mapInsert, if_pos h1, lookupFS, if_neg hka.ne']
    · by_cases h2 : k = k2
      · simp only [mapInsert, if_neg h1, if_pos h2]
      · simp only [mapInsert, if_neg h1, if_neg h2]
        by_cases haa : a = k2
        · simp [lookupFS, haa]
        · simp only [lookupFS, if_neg haa]
          have ha' : a ∈ rest.map Prod.fst := by
            rcases List.mem_map.mp ha with ⟨z, hz, hza⟩
            rcases List.mem_cons.mp hz with rfl | hz'
            · exact absurd hza.symm haa
            · exact hza ▸ List.mem_map_of_mem Prod.fst hz'
          exact ih htail ha'

theorem processAttrs_pairwise (art : Artifact) (attrs : List Attribute) :
    ∀ (fs : List (String × String)) (fsh : List (String × Artifact)) (b : Bool),
      List.Pairwise keyLt fs →
      List.Pairwise keyLt (processAttrs art attrs fs fsh b).1 := by
  induction attrs with
  | nil => exact fun fs fsh b hp => hp
  | cons attr rest ih =>
    intro fs fsh b hp
    by_cases h : attr.typeId = TSK_SET_NAME
    · simp only [processAttrs, if_pos h]
      exact ih _ _ _ (mapInsert_pairwise fs attr.valueString attr.context hp)
    · simp only [processAttrs, if_neg h]
      exact ih _ _ _ hp

theorem processAttrs_keys (art : Artifact) (attrs : List Attribute) (a : String) :
    ∀ (fs : List (String × String)) (fsh : List (String × Artifact)) (b : Bool),
      a ∈ (processAttrs art attrs fs fsh b).1.map Prod.fst ↔
        (∃ t ∈ attrs, t.typeId = TSK_SET_NAME ∧ t.valueString = a) ∨
          a ∈ fs.map Prod.fst := by
  induction attrs with
  | nil => simp [processAttrs]
  | cons attr rest ih =>
    intro fs fsh b
    by_cases h : attr.typeId = TSK_SET_NAME
    · simp only [processAttrs, if_pos h, ih, mapInsert_keys, List.mem_cons]
      constructor
      · rintro (ht | ha | ha)
        · exact Or.inl (by obtain ⟨t, htr, hh⟩ := ht; exact ⟨t, Or.inr htr, hh⟩)
        · exact Or.inl ⟨attr, Or.inl rfl, h, ha.symm⟩
        · exact Or.inr ha
      · rintro (⟨t, (rfl | htr), h1, h2⟩ | ha)
        · exact Or.inr (Or.inl h2.symm)
        · exact Or.inl ⟨t, htr, h1, h2⟩
        · exact Or.inr (Or.inr ha)
    · simp only [processAttrs, if_neg h, ih, List.mem_cons]
      constructor
      · rintro (⟨t, htr, hh⟩ | ha)
        · exact Or.inl ⟨t, Or.inr htr, hh⟩
        · exact Or.inr ha
      · rintro (⟨t, (rfl | htr), h1, h2⟩ | ha)
        · exact absurd h1 h
        · exact Or.inl ⟨t, htr, h1, h2⟩
        · exact Or.inr ha

theorem processAttrs_lookup (art : Artifact) (attrs : List Attribute) (a : String) :
    ∀ (fs : List (String × String)) (fsh : List (String × Artifact)) (b : Bool),
      List.Pairwise keyLt fs → a ∈ fs.map Prod.fst →
      lookupFS (processAttrs art attrs fs fsh b).1 a = lookupFS fs a := by
  induction attrs with
  | nil => exact fun fs fsh b hp ha => rfl
  | cons attr rest ih =>
    intro fs fsh b hp ha
    by_cases h : attr.typeId = TSK_SET_NAME
    · simp only [processAttrs, if_pos h]
      rw [ih _ _ _ (mapInsert_pairwise fs attr.valueString attr.context hp)
        ((mapInsert_keys fs attr.valueString attr.context a).mpr (Or.inr ha))]
      exact mapInsert_lookup fs attr.valueString attr.context a hp ha
    · simp only [processAttrs, if_neg h]
      exact ih _ _ _ hp ha

theorem processAttrs_no_set_name (art : Artifact) (attrs : List Attribute)
    (h : ∀ t ∈ attrs, t.typeId ≠ TSK_SET_NAME) :
    ∀ (fs : List (String × String)) (fsh : List (String × Artifact)) (b : Bool),
      processAttrs art attrs fs fsh b = (fs, fsh, b) := by
  induction attrs with
  | nil => exact fun fs fsh b => rfl
  | cons attr rest ih =>
    intro fs fsh b
    have h1 : attr.typeId ≠ TSK_SET_NAME := h attr (List.mem_cons_self attr rest)
    simp only [processAttrs, if_neg h1]
    exact ih (fun t ht => h t (List.mem_cons_of_mem attr ht)) fs fsh b

theorem groupHitsAux_pairwise (arts : List Artifact) :
    ∀ (fs : List (String × String)) (fsh : List (String × Artifact)) (logged : List Nat),
      List.Pairwise keyLt fs →
      List.Pairwise keyLt (groupHitsAux arts fs fsh logged).1 := by
  induction arts with
  | nil => exact fun fs fsh logged hp => hp
  | cons art rest ih =>
    intro fs fsh logged hp
    cases hpa : processAttrs art art.attributes fs fsh false with
    | mk fs' r =>
      cases r with
      | mk fsh' found =>
        simp only [groupHitsAux, hpa]
        refine ih _ _ _ ?_
        have := processAttrs_pairwise art art.attributes fs fsh false hp
        rw [hpa] at this
        exact this

theorem groupHitsAux_keys (arts : List Artifact) (a : String) :
    ∀ (fs : List (String × String)) (fsh : List (String × Artifact)) (logged : List Nat),
      a ∈ (groupHitsAux arts fs fsh logged).1.map Prod.fst ↔
        (∃ art ∈ arts, ∃ t ∈ art.attributes, t.typeId = TSK_SET_NAME ∧ t.valueString = a) ∨
          a ∈ fs.map Prod.fst := by
  induction arts with
  | nil => simp [groupHitsAux]
  | cons art rest ih =>
    intro fs fsh logged
    cases hpa : processAttrs art art.attributes fs fsh false with
    | mk fs' r =>
      cases r with
      | mk fsh' found =>
        simp only [groupHitsAux, hpa, ih, List.mem_cons]
        have hk := processAttrs_keys art art.attributes a fs fsh false
        rw [hpa] at hk
        rw [hk]
        constructor
        · rintro (⟨g, hgr, hg⟩ | ⟨t, ht, hh⟩ | ha)
          · exact Or.inl ⟨g, Or.inr hgr, hg⟩
          · exact Or.inl ⟨art, Or.inl rfl, t, ht, hh⟩
          · exact Or.inr ha
        · rintro (⟨g, (rfl | hgr), hg⟩ | ha)
          · exact Or.inr (Or.inl hg)
          · exact Or.inl ⟨g, hgr, hg⟩
          · exact Or.inr (Or.inr ha)

theorem groupHitsAux_lookup (arts : List Artifact) (a : String) :
    ∀ (fs : List (String × String)) (fsh : List (String × Artifact)) (logged : List Nat),
      List.Pairwise keyLt fs → a ∈ fs.map Prod.fst →
      lookupFS (groupHitsAux arts fs fsh logged).1 a = lookupFS fs a := by
  induction arts with
  | nil => exact fun fs fsh logged hp ha => rfl
  | cons art rest ih =>
    intro fs fsh logged hp ha
    cases hpa : processAttrs art art.attributes fs fsh false with
    | mk fs' r =>
      cases r with
      | mk fsh' found =>
        simp only [groupHitsAux, hpa]
        have hp' := processAttrs_pairwise art art.attributes fs fsh false hp
        rw [hpa] at hp'
        have ha' := (processAttrs_keys art art.attributes a fs fsh false).mpr (Or.inr ha)
        rw [hpa] at ha'
        rw [ih _ _ _ hp' ha']
        have := processAttrs_lookup art art.attributes a fs fsh false hp ha
        rw [hpa] at this
        exact this

theorem lastIdxOf_eq_none (c : Char) (l : List Char) (h : c ∉ l) :
    lastIdxOf c l = none := by
  induction l with
  | nil => rfl
  | cons x xs ih =>
    have hx : ¬ x = c := fun he => h (he ▸ List.mem_cons_self x xs)
    have hxs : c ∉ xs := fun hm => h (List.mem_cons_of_mem x hm)
    simp only [lastIdxOf, ih hxs, if_neg hx]

theorem lastIdxOf_append (c : Char) (a b : List Char) (hb : c ∉ b) :
    lastIdxOf c (a ++ c :: b) = some a.length := by
  induction a with
  | nil =>
    simp only [List.nil_append, lastIdxOf, lastIdxOf_eq_none c b hb, reduceIte,
      List.length_nil]
  | cons x xs ih =>
    simp only [List.cons_append, lastIdxOf, List.append_eq, ih, List.length_cons]

/-! Claim theorems. -/

/-- C4 (confirmed): the saved name of a top-level exported file is its
name with `_<id>` inserted immediately before the last '.', unless that
'.' is the first character or there is no '.', in which case `_<id>` is
appended at the end. The three cases: a name `a ++ "." ++ b` whose last
dot is not first (`a` nonempty, `b` dot-free); a name `"." ++ b` whose
only remaining dot is first; a dot-free name. -/
theorem C4_file_naming (a b : List Char) (i : Nat) (hb : '.' ∉ b) :
    (a ≠ [] → savedFileName (String.mk (a ++ '.' :: b)) i
        = String.mk (a ++ ("_" ++ toString i).toList ++ '.' :: b)) ∧
    (savedFileName (String.mk ('.' :: b)) i
        = String.mk (('.' :: b) ++ ("_" ++ toString i).toList)) ∧
    ('.' ∉ a → savedFileName (String.mk a) i
        = String.mk (a ++ ("_" ++ toString i).toList)) := by
  refine ⟨?_, ?_, ?_⟩
  · intro ha
    have hlid : lastIdxOf '.' (a ++ '.' :: b) = some a.length :=
      lastIdxOf_append '.' a b hb
    have hlen : ¬ a.length = 0 := fun hl => ha (List.length_eq_zero.mp hl)
    have htake : (a ++ '.' :: b).take a.length = a := List.take_left a ('.' :: b)
    have hdrop : (a ++ '.' :: b).drop a.length = '.' :: b := List.drop_left a ('.' :: b)
    simp [savedFileName, savedFileNameChars, hlid, hlen, htake, hdrop]
  · have hlid : lastIdxOf '.' ('.' :: b) = some 0 := by
      have h0 := lastIdxOf_append '.' [] b hb
      simpa using h0
    simp [savedFileName, savedFileNameChars, hlid]
  · intro ha
    have hlid : lastIdxOf '.' a = none := lastIdxOf_eq_none '.' a ha
    simp [savedFileName, savedFileNameChars, hlid]

/-- Witness for C4: `report.txt` with id 5 gets `_5` before the dot;
`.bashrc` with id 3 gets `_3` appended. -/
theorem C4_witness :
    savedFileName (String.mk ("report".toList ++ '.' :: "txt".toList)) 5
        = String.mk ("report".toList ++ ("_" ++ toString 5).toList ++ '.' :: "txt".toList) ∧
    savedFileName (String.mk ('.' :: "bashrc".toList)) 3
        = String.mk (('.' :: "bashrc".toList) ++ ("_" ++ toString 3).toList) :=
  ⟨(C4_file_naming "report".toList "txt".toList 5 (by decide)).1 (by decide),
   (C4_file_naming [] "bashrc".toList 3 (by decide)).2.1⟩

/-- C8 (confirmed): if creating the overall output root fails, the run
returns FAIL with nothing done at all: no directory created, no file
copied, no manifest written, before any set is processed. -/
theorem C8_root_failure_fatal (env : Env) (out : String) (arts : List Artifact)
    (h : env.mkdirOk out = false) :
    report env out arts = ({}, Status.FAIL) := by
  simp [report, createDirectory, h]

/-- Witness for C8: a concrete run whose root creation fails. -/
theorem C8_witness : report envRootFails "out" [artA, artB] = ({}, Status.FAIL) :=
  C8_root_failure_fatal envRootFails "out" [artA, artB] (by decide)

/-- C1 counterexample: with two valid rule-sets `setA` and `setB` and an
environment in which only the creation of `out/setA` fails, the claim
says `setB` is still processed; in fact the run stops after the failure:
`out/setB` is never created and no manifest at all is written. -/
theorem C1_counterexample :
    (report envSetAFails "out" [artB, artA]).2 = Status.FAIL ∧
    ("out" ++ sep ++ "setB") ∉ (report envSetAFails "out" [artB, artA]).1.dirsCreated ∧
    (report envSetAFails "out" [artB, artA]).1.manifestsWritten = [] := by
  decide

/-- C1 (corrected): a per-set folder creation failure is NOT caught at
the per-set level; it escapes `saveFiles` to the run-level catch: the
outcome is FAIL and the remaining rule-sets in iteration order are
skipped (the loop result does not depend on them at all). -/
theorem C1_set_folder_failure_aborts_run (env : Env) (out nm ds : String)
    (post : List (String × String)) (fsh : List (String × Artifact))
    (st st' : FsState) (rc rc' : Status) (u : Unit)
    (h : saveFiles env out nm ds (equalRange fsh nm) st rc = (st', rc', some u)) :
    runSets env out fsh ((nm, ds) :: post) st rc = (st', Status.FAIL) := by
  simp only [runSets, h]

/-- Witness for C1: the concrete two-set run of the counterexample,
where `setA`'s folder creation throws out of `saveFiles`. -/
theorem C1_witness :
    runSets envSetAFails "out" [("setA", artA), ("setB", artB)]
        [("setA", "dA"), ("setB", "dB")] { dirsCreated := ["out"] } Status.OK
      = ({ dirsCreated := ["out"] }, Status.FAIL) :=
  C1_set_folder_failure_aborts_run envSetAFails "out" "setA" "dA" [("setB", "dB")]
    [("setA", artA), ("setB", artB)] { dirsCreated := ["out"] }
    { dirsCreated := ["out"] } Status.OK Status.OK () (by decide)

/-- C2 counterexample: the manifest of a processed rule-set is written
to `outputRoot/<setName>/<setName>.xml`, not to
`outputRoot/<setName>/<setName>.manifest` as the claim states. -/
theorem C2_counterexample :
    (report envAll "out" [artA]).1.manifestsWritten.map Prod.fst
      = ["out" ++ sep ++ "setA" ++ sep ++ "setA" ++ ".xml"] ∧
    ("out" ++ sep ++ "setA" ++ sep ++ "setA" ++ ".manifest")
      ∉ (report envAll "out" [artA]).1.manifestsWritten.map Prod.fst := by
  decide

/-- C2 (corrected): for every rule-set whose folder is created, after
the per-hit loop over all of its hits the rule-set's manifest document
is serialized to `outputRoot/<setName>/<setName>.xml` (the extension is
`.xml`, not `.manifest`). -/
theorem C2_manifest_written_xml (env : Env) (out nm ds : String)
    (hits : List Artifact) (st : FsState) (rc : Status)
    (h : env.mkdirOk (out ++ sep ++ nm) = true) :
    ∃ doc, (saveFiles env out nm ds hits st rc).1.manifestsWritten
        = st.manifestsWritten ++ [(out ++ sep ++ nm ++ sep ++ nm ++ ".xml", doc)] := by
  obtain ⟨doc, hd, _, _, _⟩ := saveFiles_manifest env out nm ds hits st rc h
  exact ⟨doc, hd⟩

/-- Witness for C2: a concrete single-set run writing its manifest. -/
theorem C2_witness :
    ∃ doc, (saveFiles envAll "out" "setA" "dA" [artA] {} Status.OK).1.manifestsWritten
        = ({} : FsState).manifestsWritten
            ++ [("out" ++ sep ++ "setA" ++ sep ++ "setA" ++ ".xml", doc)] :=
  C2_manifest_written_xml envAll "out" "setA" "dA" [artA] {} Status.OK (by decide)

/-- C6 (confirmed): a hit record with no TSK_SET_NAME attribute is
logged (its artifact id is appended to the error log) and otherwise
skipped: the set map and the hit multimap are exactly those produced by
the remaining hits, so it contributes zero entries to any manifest, and
the remaining hits are still processed. -/
theorem C6_malformed_hit_skipped (a : Artifact) (rest : List Artifact)
    (fs : List (String × String)) (fsh : List (String × Artifact)) (logged : List Nat)
    (h : ∀ t ∈ a.attributes, t.typeId ≠ TSK_SET_NAME) :
    groupHitsAux (a :: rest) fs fsh logged
      = groupHitsAux rest fs fsh (logged ++ [a.artifactId]) := by
  have hpa := processAttrs_no_set_name a a.attributes h fs fsh false
  simp [groupHitsAux, hpa]

/-- Witness for C6: the concrete malformed hit `artBad` followed by a
valid hit. -/
theorem C6_witness :
    groupHitsAux [artBad, artA] [] [] []
      = groupHitsAux [artA] [] [] ([] ++ [artBad.artifactId]) :=
  C6_malformed_hit_skipped artBad [artA] [] [] [] (by decide)

/-- C3 (confirmed): a failure while exporting one hit (at any depth,
`dispatchHit` returning a throw) is caught at the per-hit boundary: the
loop continues with the next hit from the post-failure state, the
per-set return code is FAIL from that point on and stays FAIL, the
entries recorded up to the failure are kept and only appended to, and a
FAIL return code propagates to the end of the per-set loop. -/
theorem C3_per_hit_isolation (env : Env) (p : String) (h : Artifact)
    (rest : List Artifact) (st st' : FsState) (rc : Status) (doc doc' : Manifest)
    (u : Unit) (hthrow : dispatchHit env p h st doc = (st', doc', some u)) :
    saveHitsLoop env p (h :: rest) st rc doc
      = saveHitsLoop env p rest st' Status.FAIL doc' ∧
    (saveHitsLoop env p (h :: rest) st rc doc).2.1 = Status.FAIL ∧
    (∃ t, (saveHitsLoop env p (h :: rest) st rc doc).2.2.entries
        = doc'.entries ++ t) ∧
    (∀ (out : String) (fsh : List (String × Artifact))
        (sets : List (String × String)) (st2 : FsState),
      (runSets env out fsh sets st2 Status.FAIL).2 = Status.FAIL) := by
  have heq : saveHitsLoop env p (h :: rest) st rc doc
      = saveHitsLoop env p rest st' Status.FAIL doc' := by
    simp only [saveHitsLoop, hthrow]
  refine ⟨heq, ?_, ?_, ?_⟩
  · rw [heq]
    exact saveHitsLoop_FAIL env p rest st' doc'
  · rw [heq]
    obtain ⟨td, tf, te, _, _, _, _, _, _, h7⟩ :=
      saveHitsLoop_spec env p rest st' Status.FAIL doc'
    exact ⟨te, h7⟩
  · exact fun out fsh sets st2 => runSets_FAIL env out fsh sets st2

/-- Witness for C3: a directory hit whose nested file copy (id 44,
deep inside the recursion) fails, followed by a file hit; the loop
continues from the partial state and the outcome is FAIL. -/
theorem C3_witness :
    saveHitsLoop envCopy44Fails "out/setA" [artDir, artA] {} Status.OK
        { name := "setA", description := "dA", entries := [] }
      = saveHitsLoop envCopy44Fails "out/setA" [artA]
          { dirsCreated := ["out/setA/Photos_42/Photos",
                            "out/setA/Photos_42/Photos/sub"] }
          Status.FAIL
          { name := "setA", description := "dA",
            entries := [{ tag := "SavedDirectory",
                          path := "out/setA/Photos_42/Photos",
                          originalPath := "/img/Photos", md5 := none }] } ∧
    (saveHitsLoop envCopy44Fails "out/setA" [artDir, artA] {} Status.OK
        { name := "setA", description := "dA", entries := [] }).2.1 = Status.FAIL :=
  ⟨(C3_per_hit_isolation envCopy44Fails "out/setA" artDir [artA] {}
      { dirsCreated := ["out/setA/Photos_42/Photos", "out/setA/Photos_42/Photos/sub"] }
      Status.OK { name := "setA", description := "dA", entries := [] }
      { name := "setA", description := "dA",
        entries := [{ tag := "SavedDirectory", path := "out/setA/Photos_42/Photos",
                      originalPath := "/img/Photos", md5 := none }] }
      () (by
        simp [dispatchHit, artDir, envCopy44Fails, envAll, dirPhotos,
          saveInterestingDirectory, saveDirectoryContents, saveChildren,
          createDirectory, copyFile, addFileToReport, FsEntity.getMetaType,
          FsEntity.getName, FsEntity.getId, FsEntity.getUniquePath,
          FsEntity.getHash, FsEntity.children, sep, fileA, fileB]
        decide)).1,
   (C3_per_hit_isolation envCopy44Fails "out/setA" artDir [artA] {}
      { dirsCreated := ["out/setA/Photos_42/Photos", "out/setA/Photos_42/Photos/sub"] }
      Status.OK { name := "setA", description := "dA", entries := [] }
      { name := "setA", description := "dA",
        entries := [{ tag := "SavedDirectory", path := "out/setA/Photos_42/Photos",
                      originalPath := "/img/Photos", md5 := none }] }
      () (by
        simp [dispatchHit, artDir, envCopy44Fails, envAll, dirPhotos,
          saveInterestingDirectory, saveDirectoryContents, saveChildren,
          createDirectory, copyFile, addFileToReport, FsEntity.getMetaType,
          FsEntity.getName, FsEntity.getId, FsEntity.getUniquePath,
          FsEntity.getHash, FsEntity.children, sep, fileA, fileB]
        decide)).2.1⟩

/-- C5 (confirmed): a top-level exported directory with name `nm` and id
`i` under set folder `s` is materialized at `s/<nm>_<i>/<nm>`; during
the recursive descent a nested subdirectory is created under its plain
name with no id suffix, and a nested file is copied under its plain
name with no id insertion. -/
theorem C5_directory_naming (env : Env) (s : String) (st : FsState) (doc : Manifest)
    (i : Nat) (nm orig hsh : String) (ch : List FsEntity)
    (hmk : env.mkdirOk (s ++ sep ++ nm ++ "_" ++ toString i ++ sep ++ nm) = true) :
    (∃ t, (saveInterestingDirectory env (FsEntity.mk i nm MetaType.dir orig hsh ch)
          s st doc).1.dirsCreated
        = st.dirsCreated ++ (s ++ sep ++ nm ++ "_" ++ toString i ++ sep ++ nm) :: t) ∧
    (∀ (ci : Nat) (cn co chs : String) (cc rest : List FsEntity) (p : String)
        (st2 : FsState) (doc2 : Manifest), env.mkdirOk (p ++ sep ++ cn) = true →
      ∃ t, (saveChildren env (FsEntity.mk ci cn MetaType.dir co chs cc :: rest)
            p st2 doc2).1.dirsCreated
          = st2.dirsCreated ++ (p ++ sep ++ cn) :: t) ∧
    (∀ (ci : Nat) (cn co chs : String) (cc rest : List FsEntity) (p : String)
        (st2 : FsState) (doc2 : Manifest), env.copyOk ci = true →
      ∃ t, (saveChildren env (FsEntity.mk ci cn MetaType.reg co chs cc :: rest)
            p st2 doc2).1.filesCopied
          = st2.filesCopied ++ (ci, p ++ sep ++ cn) :: t) := by
  refine ⟨?_, ?_, ?_⟩
  · have hcd : createDirectory env (s ++ sep ++ nm ++ "_" ++ toString i ++ sep ++ nm) st
        = ({ st with dirsCreated :=
              st.dirsCreated ++ [s ++ sep ++ nm ++ "_" ++ toString i ++ sep ++ nm] },
           true) := by
      simp [createDirectory, hmk]
    obtain ⟨td, tf, te, h1, _, _, _, _, _, _, _, _⟩ :=
      saveChildren_spec env ch (s ++ sep ++ nm ++ "_" ++ toString i ++ sep ++ nm)
        { st with dirsCreated :=
            st.dirsCreated ++ [s ++ sep ++ nm ++ "_" ++ toString i ++ sep ++ nm] }
        (addFileToReport (FsEntity.mk i nm MetaType.dir orig hsh ch)
          (s ++ sep ++ nm ++ "_" ++ toString i ++ sep ++ nm) doc)
    refine ⟨td, ?_⟩
    simp only [saveInterestingDirectory, FsEntity.getName, FsEntity.getId, hcd,
      saveDirectoryContents, FsEntity.children]
    rw [h1]
    simp
  · intro ci cn co chs cc rest p st2 doc2 hck
    have hcd2 : createDirectory env (p ++ sep ++ cn) st2
        = ({ st2 with dirsCreated := st2.dirsCreated ++ [p ++ sep ++ cn] }, true) := by
      simp [createDirectory, hck]
    cases hsc : saveChildren env cc (p ++ sep ++ cn)
        { st2 with dirsCreated := st2.dirsCreated ++ [p ++ sep ++ cn] } doc2 with
    | mk stx r =>
      cases r with
      | mk docx o =>
        obtain ⟨td1, tf1, te1, h1, _, _, _, _, _, _, _, _⟩ :=
          saveChildren_spec env cc (p ++ sep ++ cn)
            { st2 with dirsCreated := st2.dirsCreated ++ [p ++ sep ++ cn] } doc2
        rw [hsc] at h1
        cases o with
        | some u =>
          refine ⟨td1, ?_⟩
          simp only [saveChildren, reduceIte, hcd2, hsc]
          rw [h1]
          simp
        | none =>
          obtain ⟨td2, tf2, te2, g1, _, _, _, _, _, _, _, _⟩ :=
            saveChildren_spec env rest p stx docx
          refine ⟨td1 ++ td2, ?_⟩
          simp only [saveChildren, reduceIte, hcd2, hsc]
          rw [g1, h1]
          simp
  · intro ci cn co chs cc rest p st2 doc2 hck
    have hcp : copyFile env ci (p ++ sep ++ cn) st2
        = ({ st2 with filesCopied := st2.filesCopied ++ [(ci, p ++ sep ++ cn)] },
           true) := by
      simp [copyFile, hck]
    obtain ⟨td1, tf1, te1, _, h2, _, _, _, _, _, _, _⟩ :=
      saveChildren_spec env rest p
        { st2 with filesCopied := st2.filesCopied ++ [(ci, p ++ sep ++ cn)] }
        (addFileToReport (FsEntity.mk ci cn MetaType.reg co chs cc) (p ++ sep ++ cn) doc2)
    refine ⟨tf1, ?_⟩
    simp only [saveChildren, reduceCtorEq, reduceIte, hcp]
    rw [h2]
    simp

/-- Witness for C5: directory `Photos` with id 42 under set folder
`setA` lands at `setA/Photos_42/Photos`. -/
theorem C5_witness :
    ∃ t, (saveInterestingDirectory envAll
          (FsEntity.mk 42 "Photos" MetaType.dir "/img/Photos" "" []) "setA" {}
          { name := "setA", description := "dA", entries := [] }).1.dirsCreated
        = ({} : FsState).dirsCreated
            ++ ("setA" ++ sep ++ "Photos" ++ "_" ++ toString 42 ++ sep ++ "Photos") :: t :=
  (C5_directory_naming envAll "setA" {}
    { name := "setA", description := "dA", entries := [] }
    42 "Photos" "/img/Photos" "" [] (by decide)).1

/-- C7 (confirmed): the grouper's set map is strictly ascending in its
keys (the orchestrator iterates it in that order), a name is a key of
the map exactly when some hit carries a TSK_SET_NAME attribute with that
value, and processing one set creates that set's subfolder
`outputRoot/<setName>` (first, before anything done for its hits). -/
theorem C7_sorted_sets_one_folder (arts : List Artifact) :
    List.Pairwise keyLt (groupHits arts).1 ∧
    (∀ k : String, k ∈ (groupHits arts).1.map Prod.fst ↔
      ∃ a ∈ arts, ∃ t ∈ a.attributes,
        t.typeId = TSK_SET_NAME ∧ t.valueString = k) ∧
    (∀ (env : Env) (out nm ds : String) (hits : List Artifact)
        (st : FsState) (rc : Status), env.mkdirOk (out ++ sep ++ nm) = true →
      ∃ t, (saveFiles env out nm ds hits st rc).1.dirsCreated
          = st.dirsCreated ++ (out ++ sep ++ nm) :: t) := by
  refine ⟨?_, ?_, ?_⟩
  · exact groupHitsAux_pairwise arts [] [] [] List.Pairwise.nil
  · intro k
    have hk := groupHitsAux_keys arts k [] [] []
    simpa [groupHits] using hk
  · exact fun env out nm ds hits st rc h => saveFiles_dirs env out nm ds hits st rc h

/-- Witness for C7: the concrete grouping of two sets given in reverse
order, plus one concrete set-folder creation. -/
theorem C7_witness :
    List.Pairwise keyLt (groupHits [artB, artA, artDir, artBad]).1 ∧
    ("setB" ∈ (groupHits [artB, artA, artDir, artBad]).1.map Prod.fst ↔
      ∃ a ∈ [artB, artA, artDir, artBad], ∃ t ∈ a.attributes,
        t.typeId = TSK_SET_NAME ∧ t.valueString = "setB") ∧
    (∃ t, (saveFiles envAll "out" "setA" "dA" [artA] {} Status.OK).1.dirsCreated
        = ({} : FsState).dirsCreated ++ ("out" ++ sep ++ "setA") :: t) :=
  ⟨(C7_sorted_sets_one_folder [artB, artA, artDir, artBad]).1,
   (C7_sorted_sets_one_folder [artB, artA, artDir, artBad]).2.1 "setB",
   (C7_sorted_sets_one_folder [artB, artA, artDir, artBad]).2.2 envAll "out" "setA"
     "dA" [artA] {} Status.OK (by decide)⟩

/-- C9 (confirmed): the grouper keeps one description per rule-set name
(the key list of the set map has no duplicates), an already-present
name's description is never changed by later hits (first occurrence
wins), and the manifest written for a set carries that set's name and
description as its root attributes. -/
theorem C9_first_description_wins :
    (∀ (arts : List Artifact) (fs : List (String × String))
        (fsh : List (String × Artifact)) (logged : List Nat) (k : String),
      List.Pairwise keyLt fs → k ∈ fs.map Prod.fst →
      lookupFS (groupHitsAux arts fs fsh logged).1 k = lookupFS fs k) ∧
    (∀ arts : List Artifact, ((groupHits arts).1.map Prod.fst).Nodup) ∧
    (∀ (env : Env) (out nm ds : String) (hits : List Artifact)
        (st : FsState) (rc : Status), env.mkdirOk (out ++ sep ++ nm) = true →
      ∃ doc, (saveFiles env out nm ds hits st rc).1.manifestsWritten
          = st.manifestsWritten ++ [(out ++ sep ++ nm ++ sep ++ nm ++ ".xml", doc)] ∧
          doc.name = nm ∧ doc.description = ds) := by
  refine ⟨?_, ?_, ?_⟩
  · exact fun arts fs fsh logged k hp hk => groupHitsAux_lookup arts k fs fsh logged hp hk
  · intro arts
    have hp : List.Pairwise keyLt (groupHits arts).1 :=
      groupHitsAux_pairwise arts [] [] [] List.Pairwise.nil
    have hp2 : List.Pairwise (fun a b : String => a < b)
        ((groupHits arts).1.map Prod.fst) :=
      List.Pairwise.map Prod.fst (fun a b hab => hab) hp
    exact hp2.imp ne_of_lt
  · intro env out nm ds hits st rc h
    obtain ⟨doc, h1, h2, h3, _⟩ := saveFiles_manifest env out nm ds hits st rc h
    exact ⟨doc, h1, h2, h3⟩

/-- Witness for C9: a later duplicate hit for `setA` with a different
description does not change the stored description, and a concrete
manifest carries its set's attributes. -/
theorem C9_witness :
    lookupFS (groupHitsAux [artDir] [("setA", "dA")] [] []).1 "setA"
        = lookupFS [("setA", "dA")] "setA" ∧
    (∃ doc, (saveFiles envAll "out" "setA" "dA" [artA] {} Status.OK).1.manifestsWritten
        = ({} : FsState).manifestsWritten
            ++ [("out" ++ sep ++ "setA" ++ sep ++ "setA" ++ ".xml", doc)] ∧
        doc.name = "setA" ∧ doc.description = "dA") :=
  ⟨C9_first_description_wins.1 [artDir] [("setA", "dA")] [] [] "setA"
      (by simp [keyLt]) (by decide),
   C9_first_description_wins.2.2 envAll "out" "setA" "dA" [artA] {} Status.OK
      (by decide)⟩

/-- C10 (confirmed): exporting a top-level directory records exactly one
SavedDirectory entry (for the directory itself, at its wrapper/inner
path); every further entry produced by the recursive descent is a
SavedFile entry, one per nested file actually copied; nested
subdirectories produce no entry of their own. -/
theorem C10_manifest_entry_kinds (env : Env) (dir : FsEntity) (s : String)
    (st : FsState) (doc : Manifest)
    (hdir : dir.getMetaType = MetaType.dir)
    (hmk : env.mkdirOk
      (s ++ sep ++ dir.getName ++ "_" ++ toString dir.getId ++ sep ++ dir.getName)
      = true) :
    ∃ t c,
      (saveInterestingDirectory env dir s st doc).2.1.entries
        = doc.entries
            ++ (⟨"SavedDirectory",
                 s ++ sep ++ dir.getName ++ "_" ++ toString dir.getId ++ sep ++ dir.getName,
                 dir.getUniquePath, none⟩ : ManifestEntry) :: t ∧
      (∀ e ∈ t, e.tag = "SavedFile") ∧
      (saveInterestingDirectory env dir s st doc).1.filesCopied
        = st.filesCopied ++ c ∧
      c.length = t.length := by
  have hcd : createDirectory env
      (s ++ sep ++ dir.getName ++ "_" ++ toString dir.getId ++ sep ++ dir.getName) st
      = ({ st with dirsCreated := st.dirsCreated ++
            [s ++ sep ++ dir.getName ++ "_" ++ toString dir.getId ++ sep ++ dir.getName] },
         true) := by
    simp [createDirectory, hmk]
  have hadd : addFileToReport dir
      (s ++ sep ++ dir.getName ++ "_" ++ toString dir.getId ++ sep ++ dir.getName) doc
      = { doc with entries := doc.entries ++
          [{ tag := "SavedDirectory",
             path := s ++ sep ++ dir.getName ++ "_" ++ toString dir.getId
               ++ sep ++ dir.getName,
             originalPath := dir.getUniquePath, md5 := none }] } := by
    unfold addFileToReport
    rw [if_pos hdir]
  obtain ⟨td, tf, te, h1, h2, h3, h4, h5, h6, h7, h8, h9⟩ :=
    saveChildren_spec env dir.children
      (s ++ sep ++ dir.getName ++ "_" ++ toString dir.getId ++ sep ++ dir.getName)
      { st with dirsCreated := st.dirsCreated ++
          [s ++ sep ++ dir.getName ++ "_" ++ toString dir.getId ++ sep ++ dir.getName] }
      (addFileToReport dir
        (s ++ sep ++ dir.getName ++ "_" ++ toString dir.getId ++ sep ++ dir.getName) doc)
  refine ⟨te, tf, ?_, h8, ?_, h9.symm⟩
  · simp only [saveInterestingDirectory, hcd, saveDirectoryContents]
    rw [h7, hadd]
    simp
  · simp only [saveInterestingDirectory, hcd, saveDirectoryContents]
    rw [h2]

/-- Witness for C10: the concrete `Photos` tree (nested subdirectory
`sub` and nested files) under set folder `out/setA`. -/
theorem C10_witness :
    ∃ t c,
      (saveInterestingDirectory envAll dirPhotos "out/setA" {}
          { name := "setA", description := "dA", entries := [] }).2.1.entries
        = ({ name := "setA", description := "dA", entries := [] } : Manifest).entries
            ++ (⟨"SavedDirectory",
                "out/setA" ++ sep ++ dirPhotos.getName ++ "_"
                  ++ toString dirPhotos.getId ++ sep ++ dirPhotos.getName,
                dirPhotos.getUniquePath, none⟩ : ManifestEntry) :: t ∧
      (∀ e ∈ t, e.tag = "SavedFile") ∧
      (saveInterestingDirectory envAll dirPhotos "out/setA" {}
          { name := "setA", description := "dA", entries := [] }).1.filesCopied
        = ({} : FsState).filesCopied ++ c ∧
      c.length = t.length :=
  C10_manifest_entry_kinds envAll dirPhotos "out/setA" {}
    { name := "setA", description := "dA", entries := [] } (by decide) (by decide)

end SaveInterestingFiles
